import Mathlib

/-!
Verification development for `pints.js`, a single-file web application that
locates the user, queries nearby pubs, and renders the distance, name and a
compass bearing toward the resolved target pub.

Numbers are modelled exactly: the geo-math functions (which call the
transcendental `Math` primitives) are embedded over `ℝ`, and the display
formatting (which only uses rational arithmetic) over `ℚ`.  The stateful
`Application` class is embedded as explicit state passing over an
`AppState` record with a step function per event kind.
-/

noncomputable section

/-- `degToRad` (pints.js line 9): degrees to radians. -/
def degToRad (deg : ℝ) : ℝ := deg * Real.pi / 180

/-- Truncation toward zero, as used by the ECMAScript `%` operator when
computing the implicit quotient. -/
def jsTrunc (x : ℝ) : ℤ := if 0 ≤ x then ⌊x⌋ else ⌈x⌉

/-- The ECMAScript remainder operator `a % b` on finite numbers with `b ≠ 0`:
`a - b * q` where `q = trunc(a / b)`; the result has the sign of `a`. -/
def jsRem (a b : ℝ) : ℝ := a - b * (jsTrunc (a / b) : ℝ)

/-- `haversineFunc` (pints.js line 13): `(1 - cos(degToRad θ)) / 2`. -/
def haversineFunc (theta : ℝ) : ℝ := (1 - Real.cos (degToRad theta)) / 2

/-- `haversineDistance` (pints.js lines 17–26): great-circle distance in
meters with mean Earth radius 6371e3 m. -/
def haversineDistance (lat1 lon1 lat2 lon2 : ℝ) : ℝ :=
  let haversineGcd := haversineFunc (lat2 - lat1) +
    (Real.cos (degToRad lat1) * Real.cos (degToRad lat2) * haversineFunc (lon2 - lon1))
  let gcd := Real.arcsin (Real.sqrt haversineGcd)
  let radiusMeters : ℝ := 6371e3
  2 * radiusMeters * gcd

/-- `Math.atan2 y x`, modelled as the principal argument of the complex
number `x + y*I`, which lies in `(-π, π]` and is `0` at the origin —
matching `Math.atan2(+0, +0) = +0`. -/
def atan2 (y x : ℝ) : ℝ := Complex.arg ⟨x, y⟩

/-- `bearingBetween` (pints.js lines 28–35): initial bearing from point 1
facing point 2, normalized via `(θ·180/π + 360) % 360`. -/
def bearingBetween (lat1 lon1 lat2 lon2 : ℝ) : ℝ :=
  let y := Real.sin (degToRad (lon2 - lon1)) * Real.cos (degToRad lat2)
  let x := Real.cos (degToRad lat1) * Real.sin (degToRad lat2) -
    Real.sin (degToRad lat1) * Real.cos (degToRad lat2) * Real.cos (degToRad (lon2 - lon1))
  let theta := atan2 y x
  let bearing := jsRem (theta * 180 / Real.pi + 360) 360
  bearing

/-- Lines 175–176 of `updateBearingUI`: the compass rotation computed from
the target bearing and the current heading,
`relBearing = (bearing - heading + 360) % 360` and
`shortRelBearing = ((relBearing + 540) % 360) - 180`. -/
def shortRelBearing (bearing heading : ℝ) : ℝ :=
  let relBearing := jsRem (bearing - heading + 360) 360
  jsRem (relBearing + 540) 360 - 180

end

theorem jsRem_sub_int (a b : ℝ) : ∃ k : ℤ, jsRem a b = a - b * k :=
  ⟨jsTrunc (a / b), rfl⟩

theorem jsRem_mem_Ico (a b : ℝ) (ha : 0 ≤ a) (hb : 0 < b) :
    jsRem a b ∈ Set.Ico (0 : ℝ) b := by
  have hq : 0 ≤ a / b := div_nonneg ha hb.le
  have hrw : jsRem a b = b * Int.fract (a / b) := by
    rw [jsRem, jsTrunc, if_pos hq, Int.fract]
    field_simp
  constructor
  · rw [hrw]; exact mul_nonneg hb.le (Int.fract_nonneg _)
  · rw [hrw]
    calc b * Int.fract (a / b) < b * 1 :=
          (mul_lt_mul_left hb).mpr (Int.fract_lt_one _)
      _ = b := mul_one b

theorem jsRem_mem_Ioc_of_neg (a b : ℝ) (ha : a < 0) (hb : 0 < b) :
    jsRem a b ∈ Set.Ioc (-b) (0 : ℝ) := by
  have hq : ¬ 0 ≤ a / b := by
    rw [not_le]
    exact div_neg_of_neg_of_pos ha hb
  have hrw : jsRem a b = -(b * ((⌈a / b⌉ : ℝ) - a / b)) := by
    rw [jsRem, jsTrunc, if_neg hq]
    field_simp
    ring
  have h1 : (0 : ℝ) ≤ (⌈a / b⌉ : ℝ) - a / b := by
    have := Int.le_ceil (a / b); linarith
  have h2 : (⌈a / b⌉ : ℝ) - a / b < 1 := by
    have := Int.ceil_lt_add_one (a / b); linarith
  constructor
  · rw [hrw]
    have : b * ((⌈a / b⌉ : ℝ) - a / b) < b * 1 := (mul_lt_mul_left hb).mpr h2
    rw [mul_one] at this
    linarith
  · rw [hrw]
    have : 0 ≤ b * ((⌈a / b⌉ : ℝ) - a / b) := mul_nonneg hb.le h1
    linarith

theorem jsRem_bounds (a b : ℝ) (hb : 0 < b) : -b < jsRem a b ∧ jsRem a b < b := by
  rcases le_or_lt 0 a with h | h
  · have := jsRem_mem_Ico a b h hb
    exact ⟨by have := this.1; linarith, this.2⟩
  · have := jsRem_mem_Ioc_of_neg a b h hb
    exact ⟨this.1, by have := this.2; linarith⟩

theorem haversineDistance_swap (lat1 lon1 lat2 lon2 : ℝ) :
    haversineDistance lat1 lon1 lat2 lon2 = haversineDistance lat2 lon2 lat1 lon1 := by
  have hcos : ∀ s t : ℝ, Real.cos (degToRad (s - t)) = Real.cos (degToRad (t - s)) := by
    intro s t
    rw [show degToRad (s - t) = -degToRad (t - s) by unfold degToRad; ring, Real.cos_neg]
  unfold haversineDistance haversineFunc
  rw [hcos lat1 lat2, hcos lon1 lon2]
  ring_nf

/-- C8: the haversine great-circle distance is symmetric in its two
coordinate arguments (exactly, in the real-number model, hence certainly
within any relative tolerance). -/
theorem haversineDistance_symm (lat1 lon1 lat2 lon2 : ℝ) :
    haversineDistance lat1 lon1 lat2 lon2 = haversineDistance lat2 lon2 lat1 lon1 :=
  haversineDistance_swap lat1 lon1 lat2 lon2

theorem haversineDistance_self (lat lon : ℝ) :
    haversineDistance lat lon lat lon = 0 := by
  have hdeg0 : degToRad 0 = 0 := by unfold degToRad; ring
  have hhav0 : haversineFunc 0 = 0 := by
    unfold haversineFunc
    rw [hdeg0, Real.cos_zero]
    ring
  unfold haversineDistance
  simp only [sub_self, hhav0, mul_zero, add_zero, Real.sqrt_zero, Real.arcsin_zero]

/-- C7: on the degenerate equal-point input the geo-math functions return
determinate values: the distance from a point to itself is `0`, and the
bearing from a point to itself is `0` (the arctangent is taken at the
origin, where the modelled `Math.atan2` returns `0`). -/
theorem geoMath_degenerate (lat lon : ℝ) :
    haversineDistance lat lon lat lon = 0 ∧ bearingBetween lat lon lat lon = 0 := by
  have hdeg0 : degToRad 0 = 0 := by unfold degToRad; ring
  have hrem : jsRem 360 360 = 0 := by
    have h1 : (360 : ℝ) / 360 = 1 := by norm_num
    have h2 : jsTrunc 1 = 1 := by
      rw [jsTrunc, if_pos (by norm_num : (0 : ℝ) ≤ 1)]
      exact Int.floor_one
    rw [jsRem, h1, h2]
    norm_num
  constructor
  · exact haversineDistance_self lat lon
  · unfold bearingBetween
    simp only [sub_self, hdeg0, Real.sin_zero, Real.cos_zero, zero_mul, mul_one]
    have hx : Real.cos (degToRad lat) * Real.sin (degToRad lat) -
        Real.sin (degToRad lat) * Real.cos (degToRad lat) = 0 := by ring
    rw [hx]
    have harg : atan2 0 0 = 0 := by
      have h0 : (⟨0, 0⟩ : ℂ) = 0 := by
        apply Complex.ext <;> simp
      rw [atan2, h0, Complex.arg_zero]
    rw [harg]
    simpa using hrem

/-- C9: `bearingBetween` always returns a value in `[0, 360)`. -/
theorem bearingBetween_mem_Ico (lat1 lon1 lat2 lon2 : ℝ) :
    bearingBetween lat1 lon1 lat2 lon2 ∈ Set.Ico (0 : ℝ) 360 := by
  unfold bearingBetween
  have hpi := Real.pi_pos
  set theta := atan2 (Real.sin (degToRad (lon2 - lon1)) * Real.cos (degToRad lat2))
    (Real.cos (degToRad lat1) * Real.sin (degToRad lat2) -
      Real.sin (degToRad lat1) * Real.cos (degToRad lat2) * Real.cos (degToRad (lon2 - lon1)))
    with htheta
  have harg : theta ∈ Set.Ioc (-Real.pi) Real.pi := by
    rw [htheta, atan2]
    exact Complex.arg_mem_Ioc _
  have hlow : -(180 : ℝ) < theta * 180 / Real.pi := by
    rw [lt_div_iff hpi]
    nlinarith [harg.1]
  have hnonneg : 0 ≤ theta * 180 / Real.pi + 360 := by linarith
  exact jsRem_mem_Ico _ 360 hnonneg (by norm_num)

/-- C1 (amended): the compass rotation computed in `updateBearingUI` is the
signed difference `bearing - heading` normalized to the half-open-at-the-
RIGHT interval `[-180, 180)`: it always lies in `[-180, 180)` and differs
from `bearing - heading` by an integer multiple of `360`. -/
theorem shortRelBearing_normalized (bearing heading : ℝ) :
    shortRelBearing bearing heading ∈ Set.Ico (-180 : ℝ) 180 ∧
      ∃ k : ℤ, shortRelBearing bearing heading = bearing - heading + 360 * k := by
  have h360 : (0 : ℝ) < 360 := by norm_num
  obtain ⟨hrl, hrh⟩ := jsRem_bounds (bearing - heading + 360) 360 h360
  have hexp : shortRelBearing bearing heading =
      jsRem (jsRem (bearing - heading + 360) 360 + 540) 360 - 180 := rfl
  set r := jsRem (bearing - heading + 360) 360 with hr
  have houter : jsRem (r + 540) 360 ∈ Set.Ico (0 : ℝ) 360 :=
    jsRem_mem_Ico _ 360 (by linarith) h360
  constructor
  · rw [hexp]
    exact ⟨by have := houter.1; linarith, by have := houter.2; linarith⟩
  · obtain ⟨k1, hk1⟩ := jsRem_sub_int (bearing - heading + 360) 360
    obtain ⟨k2, hk2⟩ := jsRem_sub_int (r + 540) 360
    refine ⟨2 - k1 - k2, ?_⟩
    rw [hexp, hk2, hr, hk1]
    push_cast
    ring

/-- C1 counterexample: at target bearing `180` and heading `0` the computed
rotation is `-180`, which is NOT in the claimed half-open-at-the-left
interval `(-180, 180]` (the claimed normalization of `180 - 0` would be
`180`). -/
theorem shortRelBearing_at_boundary :
    shortRelBearing 180 0 = -180 ∧
      shortRelBearing 180 0 ∉ Set.Ioc (-180 : ℝ) 180 := by
  have h1 : jsRem 540 360 = 180 := by
    have hq : (540 : ℝ) / 360 = 3 / 2 := by norm_num
    have hf : jsTrunc (3 / 2 : ℝ) = 1 := by
      rw [jsTrunc, if_pos (by norm_num : (0 : ℝ) ≤ 3 / 2)]
      rw [Int.floor_eq_iff] <;> norm_num
    rw [jsRem, hq, hf]
    norm_num
  have h2 : jsRem 720 360 = 0 := by
    have hq : (720 : ℝ) / 360 = 2 := by norm_num
    have hf : jsTrunc (2 : ℝ) = 2 := by
      rw [jsTrunc, if_pos (by norm_num : (0 : ℝ) ≤ 2)]
      rw [Int.floor_eq_iff] <;> norm_num
    rw [jsRem, hq, hf]
    norm_num
  have hval : shortRelBearing 180 0 = -180 := by
    have hexp : shortRelBearing 180 0 = jsRem (jsRem (180 - 0 + 360) 360 + 540) 360 - 180 := rfl
    rw [hexp]
    norm_num [h1, h2]
  refine ⟨hval, ?_⟩
  rw [hval]
  simp [Set.mem_Ioc]

/-- `Number.prototype.toFixed(0)` on a finite rational: the nearest
integer, a tie resolved to the larger candidate (ECMA-262: "If there are
two such n, pick the larger n"). -/
def toFixed0 (x : ℚ) : ℤ := ⌊x + 1 / 2⌋

/-- `Number.prototype.toFixed(2)` on a finite rational, modelled for the
non-negative range the application passes (distances are ≥ 0 and far below
the 1e21 exponential cutoff): exactly two decimal places, a tie rounded to
the larger candidate. -/
def toFixed2 (x : ℚ) : String :=
  let n := (⌊x * 100 + 1 / 2⌋).toNat
  toString (n / 100) ++ "." ++ (if n % 100 < 10 then "0" else "") ++ toString (n % 100)

/-- `distanceStr` (pints.js lines 248–257): `toFixed(0)` meters with unit
`m` by default; when `meters > 1000`, kilometers as `toFixed(2)` with unit
`km`. -/
def distanceStr (meters : ℚ) : String :=
  if meters > 1000 then toFixed2 (meters / 1000) ++ "km"
  else toString (toFixed0 meters) ++ "m"

/-- C2 counterexample: at exactly 1000 m the guard `meters > 1000` is
false, so the meter form "1000m" is produced, not the kilometer form the
claim requires at/above 1000 m. -/
theorem distanceStr_at_threshold :
    distanceStr 1000 = "1000m" ∧ distanceStr 1000 ≠ toFixed2 (1000 / 1000) ++ "km" := by
  have hm : distanceStr 1000 = "1000m" := by
    have hgt : ¬ ((1000 : ℚ) > 1000) := by norm_num
    rw [distanceStr, if_neg hgt]
    have : toFixed0 1000 = 1000 := by
      rw [toFixed0, Int.floor_eq_iff] <;> norm_num
    rw [this]
    rfl
  refine ⟨hm, ?_⟩
  rw [hm]
  have h1 : (1000 : ℚ) / 1000 * 100 + 1 / 2 = 201 / 2 := by norm_num
  have h2 : (⌊(201 : ℚ) / 2⌋ : ℤ) = 100 := by
    rw [Int.floor_eq_iff] <;> norm_num
  rw [toFixed2, h1, h2]
  decide

/-- C2 (amended): the display string is the rounded whole-number meter
count with unit `m` when the distance is at most 1000 m (including exactly
1000 m, which yields "1000m"), and the kilometer value with two decimal
places and unit `km` strictly above 1000 m; 999 m yields "999m" and
1500 m yields "1.50km". -/
theorem distanceStr_spec :
    distanceStr 999 = "999m" ∧ distanceStr 1500 = "1.50km" ∧ distanceStr 1000 = "1000m" ∧
    (∀ d : ℚ, d ≤ 1000 → distanceStr d = toString (toFixed0 d) ++ "m") ∧
    (∀ d : ℚ, 1000 < d → distanceStr d = toFixed2 (d / 1000) ++ "km") := by
  refine ⟨?_, ?_, ?_, ?_, ?_⟩
  · have hgt : ¬ ((999 : ℚ) > 1000) := by norm_num
    rw [distanceStr, if_neg hgt]
    have : toFixed0 999 = 999 := by
      rw [toFixed0, Int.floor_eq_iff] <;> norm_num
    rw [this]
    rfl
  · have hgt : (1500 : ℚ) > 1000 := by norm_num
    rw [distanceStr, if_pos hgt]
    have h1 : (1500 : ℚ) / 1000 * 100 + 1 / 2 = 301 / 2 := by norm_num
    have h2 : (⌊(301 : ℚ) / 2⌋ : ℤ) = 150 := by
      rw [Int.floor_eq_iff] <;> norm_num
    rw [toFixed2, h1, h2]
    rfl
  · have hgt : ¬ ((1000 : ℚ) > 1000) := by norm_num
    rw [distanceStr, if_neg hgt]
    have : toFixed0 1000 = 1000 := by
      rw [toFixed0, Int.floor_eq_iff] <;> norm_num
    rw [this]
    rfl
  · intro d hd
    rw [distanceStr, if_neg (by exact not_lt.mpr hd)]
  · intro d hd
    rw [distanceStr, if_pos hd]

/-- C2 witness: the general branches evaluated at 500 m and 2000 m. -/
theorem distanceStr_spec_witness :
    distanceStr 999 = "999m" ∧
    distanceStr 500 = toString (toFixed0 500) ++ "m" ∧
    distanceStr 2000 = toFixed2 (2000 / 1000) ++ "km" :=
  ⟨distanceStr_spec.1,
   distanceStr_spec.2.2.2.1 500 (by norm_num),
   distanceStr_spec.2.2.2.2 2000 (by norm_num)⟩

/-- A geolocation coordinate as read from `position.coords`. -/
structure Coords where
  latitude : ℝ
  longitude : ℝ

/-- A point of interest as built by `fetchNearbyPubs` (pints.js lines
112–128): coordinate, optional `name` tag and the OSM numeric id. -/
structure Pub where
  latitude : ℝ
  longitude : ℝ
  name : Option String
  id : ℤ

noncomputable section

/-- Distance from a location to a pub, as computed at lines 149–160. -/
def pubDistance (loc : Coords) (p : Pub) : ℝ :=
  haversineDistance loc.latitude loc.longitude p.latitude p.longitude

/-- The `#distanceSort` comparator (pints.js lines 148–162): `d1 - d2`. -/
def distanceSort (loc : Coords) (pub1 pub2 : Pub) : ℝ :=
  haversineDistance loc.latitude loc.longitude pub1.latitude pub1.longitude -
    haversineDistance loc.latitude loc.longitude pub2.latitude pub2.longitude

/-- `this.nearbyPubs.toSorted(this.#distanceSort.bind(this))` (lines 143
and 238): `Array.prototype.toSorted` is required by ECMA-262 to be stable,
and with this consistent comparator it orders by ascending distance;
modelled by the stable `List.mergeSort` on the comparator's `≤ 0` test. -/
def toSortedByDistance (loc : Coords) (pubs : List Pub) : List Pub :=
  pubs.mergeSort fun p1 p2 => decide (distanceSort loc p1 p2 ≤ 0)

/-- `selectedPub` (pints.js lines 135–146): when `this.selectedPubId` is
truthy (a nonzero number; `null` and `0` are falsy) and a pub with that id
is found, return it; otherwise return the first element of the
distance-sorted copy of `nearbyPubs`. -/
def selectedPub (loc : Coords) (pubs : List Pub) (selectedPubId : Option ℤ) : Option Pub :=
  match selectedPubId with
  | some i =>
    if i ≠ 0 then
      match pubs.find? fun p => p.id == i with
      | some pub => some pub
      | none => (toSortedByDistance loc pubs).head?
    else (toSortedByDistance loc pubs).head?
  | none => (toSortedByDistance loc pubs).head?

end

theorem distanceSort_le_iff (loc : Coords) (p q : Pub) :
    distanceSort loc p q ≤ 0 ↔ pubDistance loc p ≤ pubDistance loc q := by
  unfold distanceSort pubDistance
  constructor <;> intro h <;> linarith

theorem distComparator_trans (loc : Coords) :
    ∀ a b c : Pub, (decide (distanceSort loc a b ≤ 0)) = true →
      (decide (distanceSort loc b c ≤ 0)) = true →
      (decide (distanceSort loc a c ≤ 0)) = true := by
  intro a b c hab hbc
  rw [decide_eq_true_iff, distanceSort_le_iff] at hab hbc ⊢
  exact le_trans hab hbc

theorem distComparator_total (loc : Coords) :
    ∀ a b : Pub, ((decide (distanceSort loc a b ≤ 0)) ||
      (decide (distanceSort loc b a ≤ 0))) = true := by
  intro a b
  rw [Bool.or_eq_true, decide_eq_true_iff, decide_eq_true_iff,
    distanceSort_le_iff, distanceSort_le_iff]
  exact le_total _ _

theorem head?_filter_index {α : Type} (P : α → Bool) (l : List α) (b : α)
    (h : (l.filter P).head? = some b) :
    ∃ k, ∃ hk : k < l.length, l.get ⟨k, hk⟩ = b ∧
      ∀ j, ∀ hj : j < l.length, j < k → P (l.get ⟨j, hj⟩) = false := by
  induction l with
  | nil => simp at h
  | cons a t ih =>
    by_cases hP : P a
    · rw [List.filter_cons_of_pos hP] at h
      simp only [List.head?_cons, Option.some.injEq] at h
      exact ⟨0, by simp, by simpa using h, by omega⟩
    · rw [List.filter_cons_of_neg (by simpa using hP)] at h
      obtain ⟨k, hk, hget, hbefore⟩ := ih h
      refine ⟨k + 1, by simpa using Nat.succ_lt_succ hk, by simpa using hget, ?_⟩
      intro j hj hjk
      match j with
      | 0 => simpa using hP
      | j' + 1 =>
        have hj' : j' < t.length := by simpa using hj
        have := hbefore j' hj' (by omega)
        simpa using this

/-- The head of the stable distance sort is the FIRST element of the input
attaining the minimum distance: it is some `pubs[k]` of minimal distance
such that every earlier element is strictly farther. -/
theorem head?_toSortedByDistance (loc : Coords) (pubs : List Pub) (h : pubs ≠ []) :
    ∃ k, ∃ hk : k < pubs.length,
      (toSortedByDistance loc pubs).head? = some (pubs.get ⟨k, hk⟩) ∧
      (∀ p ∈ pubs, pubDistance loc (pubs.get ⟨k, hk⟩) ≤ pubDistance loc p) ∧
      ∀ j, ∀ hj : j < pubs.length, j < k →
        pubDistance loc (pubs.get ⟨k, hk⟩) < pubDistance loc (pubs.get ⟨j, hj⟩) := by
  classical
  set le : Pub → Pub → Bool := fun p1 p2 => decide (distanceSort loc p1 p2 ≤ 0) with hle
  have htrans := distComparator_trans loc
  have htotal := distComparator_total loc
  set m := toSortedByDistance loc pubs with hm
  have hperm : m.Perm pubs := List.mergeSort_perm pubs le
  have hsorted : m.Pairwise (fun a b => le a b = true) :=
    List.sorted_mergeSort htrans htotal pubs
  have hmne : m ≠ [] := by
    intro hnil
    apply h
    have hlen := hperm.length_eq
    rw [hnil] at hlen
    exact List.length_eq_zero.mp hlen.symm
  obtain ⟨b, m', hbm⟩ := List.exists_cons_of_ne_nil hmne
  have hbmem : b ∈ pubs := hperm.mem_iff.mp (by rw [hbm]; exact List.mem_cons_self b m')
  have hbmin : ∀ p ∈ pubs, pubDistance loc b ≤ pubDistance loc p := by
    intro p hp
    have hpm : p ∈ m := hperm.mem_iff.mpr hp
    rw [hbm] at hpm
    rcases List.mem_cons.mp hpm with hpb | hpm'
    · rw [hpb]
    · have hs2 := hsorted
      rw [hbm] at hs2
      have hbp := (List.pairwise_cons.mp hs2).1 p hpm'
      have hds : distanceSort loc b p ≤ 0 := by simpa [hle] using hbp
      exact (distanceSort_le_iff loc b p).mp hds
  set P : Pub → Bool := fun p => decide (pubDistance loc p ≤ pubDistance loc b) with hP
  have hPmem : ∀ p ∈ pubs, P p = true → pubDistance loc p = pubDistance loc b := by
    intro p hp hPp
    exact le_antisymm (decide_eq_true_iff.mp hPp) (hbmin p hp)
  set c := pubs.filter P with hc
  have hcpair : c.Pairwise (fun a b => le a b = true) := by
    apply List.pairwise_of_forall_mem_list
    intro x hx y hy
    have hx' := List.mem_filter.mp hx
    have hy' := List.mem_filter.mp hy
    have hxb := hPmem x hx'.1 hx'.2
    have hyb := hPmem y hy'.1 hy'.2
    rw [hle]
    rw [decide_eq_true_iff, distanceSort_le_iff, hxb, hyb]
  have hcsub : c.Sublist m :=
    List.sublist_mergeSort htrans htotal hcpair (List.filter_sublist pubs)
  have hcfilter : c.filter P = c :=
    List.filter_eq_self.mpr fun a ha => (List.mem_filter.mp ha).2
  have hcsub2 : c.Sublist (m.filter P) := by
    have := hcsub.filter P
    rwa [hcfilter] at this
  have hperm2 : (m.filter P).Perm c := hperm.filter P
  have heqc : c = m.filter P :=
    hcsub2.eq_of_length (by rw [hperm2.length_eq])
  have hPb : P b = true := by
    rw [hP]
    simp
  have hhead : c.head? = some b := by
    rw [heqc, hbm, List.filter_cons_of_pos hPb]
    rfl
  obtain ⟨k, hk, hget, hbefore⟩ := head?_filter_index P pubs b (by rw [← hc]; exact hhead)
  refine ⟨k, hk, ?_, ?_, ?_⟩
  · rw [hbm, hget]
    rfl
  · rw [hget]
    exact hbmin
  · intro j hj hjk
    rw [hget]
    have hPj := hbefore j hj hjk
    have hnot : ¬ pubDistance loc (pubs.get ⟨j, hj⟩) ≤ pubDistance loc b := by
      simpa [hP] using hPj
    exact lt_of_not_le hnot

/-- C4 (amended): target resolution returns the member carrying the
selected id whenever the selection id is TRUTHY (nonzero) and such a
member exists; whenever the selection is absent, falsy, or no longer
present in the candidate set (e.g. after the set was replaced), it
returns the member of minimum haversine distance, ties broken by original
insertion order (first encountered wins). -/
theorem selectedPub_resolution (loc : Coords) (pubs : List Pub) :
    (∀ (i : ℤ) (q : Pub), i ≠ 0 → q ∈ pubs → q.id = i →
      (∀ r ∈ pubs, r.id = i → r = q) → selectedPub loc pubs (some i) = some q) ∧
    (∀ sel : Option ℤ, pubs ≠ [] →
      (sel = none ∨ ∃ i, sel = some i ∧ (i = 0 ∨ ∀ p ∈ pubs, p.id ≠ i)) →
      ∃ k, ∃ hk : k < pubs.length,
        selectedPub loc pubs sel = some (pubs.get ⟨k, hk⟩) ∧
        (∀ p ∈ pubs, pubDistance loc (pubs.get ⟨k, hk⟩) ≤ pubDistance loc p) ∧
        ∀ j, ∀ hj : j < pubs.length, j < k →
          pubDistance loc (pubs.get ⟨k, hk⟩) < pubDistance loc (pubs.get ⟨j, hj⟩)) := by
  constructor
  · intro i q hi hq hqid huniq
    have hsome : (pubs.find? fun p => p.id == i).isSome := by
      rw [List.find?_isSome]
      exact ⟨q, hq, by simpa using hqid⟩
    obtain ⟨p, hp⟩ := Option.isSome_iff_exists.mp hsome
    have hpid : p.id = i := by
      have := List.find?_some hp
      simpa using this
    have hpmem : p ∈ pubs := List.mem_of_find?_eq_some hp
    have hpq : p = q := huniq p hpmem hpid
    show selectedPub loc pubs (some i) = some q
    have hred : selectedPub loc pubs (some i) =
        if i ≠ 0 then
          match pubs.find? fun p => p.id == i with
          | some pub => some pub
          | none => (toSortedByDistance loc pubs).head?
        else (toSortedByDistance loc pubs).head? := rfl
    rw [hred, if_pos hi, hp, hpq]
  · intro sel hne hcond
    have hfall : selectedPub loc pubs sel = (toSortedByDistance loc pubs).head? := by
      rcases hcond with hnone | ⟨i, hsel, hcase⟩
      · rw [hnone]
        rfl
      · rw [hsel]
        have hred : selectedPub loc pubs (some i) =
            if i ≠ 0 then
              match pubs.find? fun p => p.id == i with
              | some pub => some pub
              | none => (toSortedByDistance loc pubs).head?
            else (toSortedByDistance loc pubs).head? := rfl
        rcases hcase with hzero | habsent
        · rw [hred, if_neg (by simpa using hzero)]
        · have hfind : (pubs.find? fun p => p.id == i) = none := by
            rw [List.find?_eq_none]
            intro p hp
            simpa using habsent p hp
          by_cases hi : i ≠ 0
          · rw [hred, if_pos hi, hfind]
          · rw [hred, if_neg hi]
    obtain ⟨k, hk, hhead, hmin, hfirst⟩ := head?_toSortedByDistance loc pubs hne
    exact ⟨k, hk, by rw [hfall]; exact hhead, hmin, hfirst⟩

/-- C4 witness: in a one-pub candidate set `[p]` with `p.id = 5`, a truthy
selection `some 5` resolves to `p`, and with no selection the nearest
fallback also resolves to `p` (at index 0). -/
theorem selectedPub_resolution_witness :
    selectedPub ⟨0, 0⟩ [⟨0, 0, none, 5⟩] (some 5) = some ⟨0, 0, none, 5⟩ ∧
    (∃ k, ∃ hk : k < ([(⟨0, 0, none, 5⟩ : Pub)] : List Pub).length,
      selectedPub ⟨0, 0⟩ [⟨0, 0, none, 5⟩] none =
        some (([(⟨0, 0, none, 5⟩ : Pub)] : List Pub).get ⟨k, hk⟩) ∧
      (∀ p ∈ ([(⟨0, 0, none, 5⟩ : Pub)] : List Pub),
        pubDistance ⟨0, 0⟩ (([(⟨0, 0, none, 5⟩ : Pub)] : List Pub).get ⟨k, hk⟩) ≤
          pubDistance ⟨0, 0⟩ p) ∧
      ∀ j, ∀ hj : j < ([(⟨0, 0, none, 5⟩ : Pub)] : List Pub).length, j < k →
        pubDistance ⟨0, 0⟩ (([(⟨0, 0, none, 5⟩ : Pub)] : List Pub).get ⟨k, hk⟩) <
          pubDistance ⟨0, 0⟩ (([(⟨0, 0, none, 5⟩ : Pub)] : List Pub).get ⟨j, hj⟩)) :=
  ⟨(selectedPub_resolution ⟨0, 0⟩ [⟨0, 0, none, 5⟩]).1 5 ⟨0, 0, none, 5⟩ (by decide)
      (List.mem_singleton.mpr rfl) rfl
      (fun r hr _ => List.mem_singleton.mp hr),
   (selectedPub_resolution ⟨0, 0⟩ [⟨0, 0, none, 5⟩]).2 none (by simp) (Or.inl rfl)⟩

/-- C10: a falsy stored selection id — the number `0`, whose JavaScript
truthiness test `if (this.selectedPubId)` fails — is ignored entirely:
resolution behaves exactly as with no selection and returns the head of
the distance-sorted list, even if a pub with id `0` is present. -/
theorem selectedPub_falsy_id (loc : Coords) (pubs : List Pub) :
    selectedPub loc pubs (some 0) = selectedPub loc pubs none ∧
    selectedPub loc pubs (some 0) = (toSortedByDistance loc pubs).head? :=
  ⟨rfl, rfl⟩

/-- Status banner severity, matching `STATUS_CLASSES` (pints.js line 3). -/
inductive StatusLevel where
  | info
  | error
deriving DecidableEq

/-- The mutable fields of the `Application` class (pints.js lines 49–54).
`inFlight` counts outstanding network requests (the set of not-yet-settled
`fetch` promises), making the single-flight property expressible;
`_pendingFetch` itself is the boolean guard of lines 91–93. -/
structure AppState where
  currentLocation : Option Coords
  currentHeading : Option ℝ
  nearbyPubs : Option (List Pub)
  selectedPubId : Option ℤ
  pendingFetch : Bool
  inFlight : ℕ
  status : Option (String × StatusLevel)

/-- `setStatus` (pints.js lines 281–293), banner state only. -/
def setStatus (s : AppState) (msg : String) (level : StatusLevel) : AppState :=
  { s with status := some (msg, level) }

/-- `clearStatus` (pints.js lines 295–298). -/
def clearStatus (s : AppState) : AppState := { s with status := none }

/-- `updateUI` (pints.js lines 181–201), state effect only: it returns
early unless a location is known and the pub list is non-empty, and
otherwise clears the status banner.  The derived display values it emits
are pure functions of the state modelled separately (`distanceStr`,
`selectedPub`, `shortRelBearing`). -/
def updateUI (s : AppState) : AppState :=
  match s.currentLocation, s.nearbyPubs with
  | some _, some pubs => if pubs.isEmpty then s else clearStatus s
  | _, _ => s

/-- One record of the Overpass `elements` array as consumed by
`fetchNearbyPubs` (pints.js lines 112–128): a way/relation carries a
`center` member while a node carries `lat`/`lon` directly; the `tags`
object may be absent entirely (reading `r["tags"]["name"]` then throws a
TypeError) or merely lack a `name`. -/
structure OsmElement where
  id : ℤ
  hasCenter : Bool
  centerLat : ℝ
  centerLon : ℝ
  lat : ℝ
  lon : ℝ
  tags : Option (Option String)

/-- The per-element mapping of `fetchNearbyPubs` (pints.js lines 112–128);
`Except.error` models the TypeError thrown when `tags` is absent. -/
def extractPub (r : OsmElement) : Except Unit Pub :=
  match r.tags with
  | none => Except.error ()
  | some nameTag =>
    if r.hasCenter then Except.ok ⟨r.centerLat, r.centerLon, nameTag, r.id⟩
    else Except.ok ⟨r.lat, r.lon, nameTag, r.id⟩

/-- The `.map` over `json.elements` (pints.js line 112): the whole mapping
throws as soon as any element throws, so no partial list is ever built. -/
def extractPubs (elements : List OsmElement) : Except Unit (List Pub) :=
  elements.mapM extractPub

/-- Possible outcomes of the `fetch` awaited in `fetchNearbyPubs`: a
non-2xx HTTP response (`response.ok` false), a body on which
`response.json()` rejects, or a parsed body whose `elements` array may be
absent (`json?.elements ?? []`). -/
inductive FetchResponse where
  | notOk (statusCode : ℕ)
  | badJson
  | ok (elements : Option (List OsmElement))

/-- Whether the async `fetchNearbyPubs` body completed normally or threw
an exception that nothing in the source catches (rejecting its promise
without any status update). -/
inductive FetchResult where
  | completed
  | threw
deriving DecidableEq

/-- The response-handling part of `fetchNearbyPubs` (pints.js lines
107–132), run when the awaited response arrives. -/
def handleFetchResponse (resp : FetchResponse) (s : AppState) : AppState × FetchResult :=
  match resp with
  | FetchResponse.notOk statusCode =>
      (setStatus s ("Error fetching local pubs: " ++ toString statusCode) StatusLevel.error,
        FetchResult.completed)
  | FetchResponse.badJson => (s, FetchResult.threw)
  | FetchResponse.ok elements =>
      match extractPubs (elements.getD []) with
      | Except.error _ => (s, FetchResult.threw)
      | Except.ok results =>
          (updateUI { s with nearbyPubs := some results }, FetchResult.completed)

/-- Lines 91–93 of `setCoords` together with the synchronous start of
`fetchNearbyPubs` (line 97): if `_pendingFetch` is unset, the fetch is
started — the async body runs up to its first `await`, setting the
"Fetching nearby pubs" info banner — and the guard is set; otherwise
nothing happens (the request is dropped). -/
def startFetchIfIdle (s : AppState) : AppState :=
  if s.pendingFetch then s
  else { setStatus s "Fetching nearby pubs" StatusLevel.info with
          pendingFetch := true, inFlight := s.inFlight + 1 }

/-- Settlement of the in-flight fetch: the rest of the async body runs
(`handleFetchResponse`), then the `.finally` handler of line 92
unconditionally clears `_pendingFetch`. -/
def completeFetch (resp : FetchResponse) (s : AppState) : AppState :=
  let s1 := (handleFetchResponse resp s).1
  { s1 with pendingFetch := false, inFlight := s1.inFlight - 1 }

/-- `setCoords` (pints.js lines 76–94): store the new coordinate, rerun
`updateUI`, and unless the previous coordinate exists and is closer than
250 m, attempt a guarded fetch. -/
noncomputable def setCoords (position : Coords) (s : AppState) : AppState :=
  let oldCoords := s.currentLocation
  let s1 := updateUI { s with currentLocation := some position }
  match oldCoords with
  | some old =>
      if haversineDistance position.latitude position.longitude old.latitude old.longitude < 250
      then s1
      else startFetchIfIdle s1
  | none => startFetchIfIdle s1

/-- `setHeading` (pints.js lines 70–74): `currentHeading = 360 - alpha`
(`updateBearingUI` writes only to the DOM). -/
def setHeading (alpha : ℝ) (s : AppState) : AppState :=
  { s with currentHeading := some (360 - alpha) }

/-- The radio-button change listener (pints.js lines 220–223): store the
selected pub id and rerun `updateUI`. -/
def selectPubEvent (id : ℤ) (s : AppState) : AppState :=
  updateUI { s with selectedPubId := some id }

/-- The events the single-threaded handler loop processes one at a time. -/
inductive Event where
  | location (position : Coords)
  | orientation (alpha : ℝ)
  | fetchComplete (resp : FetchResponse)
  | select (id : ℤ)

/-- One handler invocation.  A `fetchComplete` event can only settle an
outstanding request, so it is a no-op when none is in flight. -/
noncomputable def step (e : Event) (s : AppState) : AppState :=
  match e with
  | Event.location position => setCoords position s
  | Event.orientation alpha => setHeading alpha s
  | Event.fetchComplete resp => if s.inFlight = 0 then s else completeFetch resp s
  | Event.select id => selectPubEvent id s

/-- The `Application` constructor's state (pints.js lines 49–57). -/
def initialState : AppState :=
  { currentLocation := none, currentHeading := none, nearbyPubs := none,
    selectedPubId := none, pendingFetch := false, inFlight := 0,
    status := some ("Fetching location", StatusLevel.info) }

/-- States reachable from startup by handling events. -/
inductive Reachable : AppState → Prop where
  | init : Reachable initialState
  | step {s : AppState} (e : Event) : Reachable s → Reachable (step e s)

theorem updateUI_eq_or (s : AppState) : updateUI s = s ∨ updateUI s = clearStatus s := by
  unfold updateUI
  split
  · split
    · exact Or.inl rfl
    · exact Or.inr rfl
  · exact Or.inl rfl

theorem updateUI_pendingFetch (s : AppState) : (updateUI s).pendingFetch = s.pendingFetch := by
  rcases updateUI_eq_or s with h | h <;> rw [h] <;> rfl

theorem updateUI_inFlight (s : AppState) : (updateUI s).inFlight = s.inFlight := by
  rcases updateUI_eq_or s with h | h <;> rw [h] <;> rfl

theorem updateUI_nearbyPubs (s : AppState) : (updateUI s).nearbyPubs = s.nearbyPubs := by
  rcases updateUI_eq_or s with h | h <;> rw [h] <;> rfl

theorem updateUI_selectedPubId (s : AppState) :
    (updateUI s).selectedPubId = s.selectedPubId := by
  rcases updateUI_eq_or s with h | h <;> rw [h] <;> rfl

theorem handleFetchResponse_pendingFetch (resp : FetchResponse) (s : AppState) :
    (handleFetchResponse resp s).1.pendingFetch = s.pendingFetch := by
  unfold handleFetchResponse
  rcases resp with code | _ | elements
  · rfl
  · rfl
  · dsimp only
    split
    · rfl
    · rw [updateUI_pendingFetch]

theorem handleFetchResponse_inFlight (resp : FetchResponse) (s : AppState) :
    (handleFetchResponse resp s).1.inFlight = s.inFlight := by
  unfold handleFetchResponse
  rcases resp with code | _ | elements
  · rfl
  · rfl
  · dsimp only
    split
    · rfl
    · rw [updateUI_inFlight]

theorem setCoords_eq (position : Coords) (s : AppState) :
    setCoords position s =
      match s.currentLocation with
      | some old =>
          if haversineDistance position.latitude position.longitude old.latitude old.longitude < 250
          then updateUI { s with currentLocation := some position }
          else startFetchIfIdle (updateUI { s with currentLocation := some position })
      | none => startFetchIfIdle (updateUI { s with currentLocation := some position }) := rfl

theorem startFetchIfIdle_inFlight (t : AppState) :
    (startFetchIfIdle t).inFlight = if t.pendingFetch then t.inFlight else t.inFlight + 1 := by
  by_cases hp : t.pendingFetch
  · rw [startFetchIfIdle, if_pos hp, if_pos hp]
  · rw [startFetchIfIdle, if_neg hp, if_neg hp]

theorem setCoords_flags_of_pending (position : Coords) (s : AppState)
    (hp : s.pendingFetch = true) :
    (setCoords position s).inFlight = s.inFlight ∧
      (setCoords position s).pendingFetch = true := by
  have hs1i : (updateUI { s with currentLocation := some position }).inFlight = s.inFlight :=
    updateUI_inFlight _
  have hs1p : (updateUI { s with currentLocation := some position }).pendingFetch =
      s.pendingFetch := updateUI_pendingFetch _
  have hstart : startFetchIfIdle (updateUI { s with currentLocation := some position }) =
      updateUI { s with currentLocation := some position } := by
    rw [startFetchIfIdle, if_pos (by rw [hs1p]; exact hp)]
  rw [setCoords_eq]
  split
  · split
    · exact ⟨hs1i, by rw [hs1p]; exact hp⟩
    · rw [hstart]
      exact ⟨hs1i, by rw [hs1p]; exact hp⟩
  · rw [hstart]
    exact ⟨hs1i, by rw [hs1p]; exact hp⟩

/-- The single-flight guard invariant: at most one request outstanding,
and the `_pendingFetch` flag is set precisely while one is. -/
def GuardInv (s : AppState) : Prop :=
  s.inFlight ≤ 1 ∧ (s.pendingFetch = true ↔ s.inFlight = 1)

theorem startFetchIfIdle_guardInv (s : AppState) (h : GuardInv s) :
    GuardInv (startFetchIfIdle s) := by
  rcases h with ⟨h1, h2⟩
  by_cases hp : s.pendingFetch
  · rw [startFetchIfIdle, if_pos hp]
    exact ⟨h1, h2⟩
  · rw [startFetchIfIdle, if_neg hp]
    have h0 : s.inFlight = 0 := by
      have hne : s.inFlight ≠ 1 := fun he => hp (h2.mpr he)
      omega
    refine ⟨?_, ?_⟩
    · show s.inFlight + 1 ≤ 1
      omega
    · show (true = true) ↔ (s.inFlight + 1 = 1)
      exact ⟨fun _ => by omega, fun _ => rfl⟩

theorem setCoords_guardInv (position : Coords) (s : AppState) (h : GuardInv s) :
    GuardInv (setCoords position s) := by
  have hsub : GuardInv (updateUI { s with currentLocation := some position }) := by
    rcases updateUI_eq_or { s with currentLocation := some position } with he | he <;> rw [he]
    · exact h
    · exact h
  rw [setCoords_eq]
  split
  · split
    · exact hsub
    · exact startFetchIfIdle_guardInv _ hsub
  · exact startFetchIfIdle_guardInv _ hsub

theorem step_guardInv (e : Event) (s : AppState) (h : GuardInv s) : GuardInv (step e s) := by
  rcases e with position | alpha | resp | id
  · exact setCoords_guardInv position s h
  · exact h
  · show GuardInv (if s.inFlight = 0 then s else completeFetch resp s)
    split
    · exact h
    · rename_i hnz
      rcases h with ⟨h1, h2⟩
      refine ⟨?_, ?_⟩
      · show (handleFetchResponse resp s).1.inFlight - 1 ≤ 1
        rw [handleFetchResponse_inFlight]
        omega
      · show (false = true) ↔ ((handleFetchResponse resp s).1.inFlight - 1 = 1)
        rw [handleFetchResponse_inFlight]
        constructor
        · intro hctr
          exact absurd hctr (by simp)
        · intro hctr
          exact absurd hctr (by omega)
  · show GuardInv (updateUI { s with selectedPubId := some id })
    rcases updateUI_eq_or { s with selectedPubId := some id } with he | he <;> rw [he]
    · exact h
    · exact h

theorem reachable_guardInv (s : AppState) (h : Reachable s) : GuardInv s := by
  induction h with
  | init =>
      refine ⟨?_, ?_⟩
      · show (0 : ℕ) ≤ 1
        omega
      · show (false = true) ↔ ((0 : ℕ) = 1)
        exact ⟨fun hctr => absurd hctr (by simp), fun hctr => absurd hctr (by omega)⟩
  | step e hr ih => exact step_guardInv e _ ih

/-- An example reachable-shaped state with the in-flight guard set, used
to evaluate the guard theorems at a concrete input. -/
def examplePendingState : AppState :=
  { initialState with pendingFetch := true, inFlight := 1 }

/-- C6: at most one refresh fetch is in flight in every reachable state; a
location update arriving while `_pendingFetch` is set starts no new fetch
and leaves the flag set; and completion of a fetch — whatever the
response, success or failure — clears the flag unconditionally. -/
theorem fetch_guard_invariant :
    (∀ s : AppState, Reachable s → s.inFlight ≤ 1) ∧
    (∀ (s : AppState) (position : Coords), s.pendingFetch = true →
      (setCoords position s).inFlight = s.inFlight ∧
      (setCoords position s).pendingFetch = true) ∧
    (∀ (s : AppState) (resp : FetchResponse), (completeFetch resp s).pendingFetch = false) := by
  refine ⟨?_, ?_, ?_⟩
  · intro s h
    exact (reachable_guardInv s h).1
  · intro s position hp
    exact setCoords_flags_of_pending position s hp
  · intro s resp
    rfl

/-- C6 witness: the guard theorems evaluated at the initial state and at a
concrete state with the flag set. -/
theorem fetch_guard_invariant_witness :
    initialState.inFlight ≤ 1 ∧
    ((setCoords ⟨0, 0⟩ examplePendingState).inFlight = examplePendingState.inFlight ∧
      (setCoords ⟨0, 0⟩ examplePendingState).pendingFetch = true) ∧
    (completeFetch (FetchResponse.notOk 500) examplePendingState).pendingFetch = false :=
  ⟨fetch_guard_invariant.1 initialState Reachable.init,
   fetch_guard_invariant.2.1 examplePendingState ⟨0, 0⟩ rfl,
   fetch_guard_invariant.2.2 examplePendingState (FetchResponse.notOk 500)⟩

/-- C5 (amended): on a location update a refresh fetch is initiated (the
outstanding-request count grows by one) exactly when `_pendingFetch` is
clear AND (the previous coordinate is absent, or the move is at least
250 m); a qualifying update while a fetch is in flight initiates nothing,
and an identical coordinate (distance 0) never initiates a fetch. -/
theorem setCoords_refresh_policy (s : AppState) (position : Coords) :
    ((setCoords position s).inFlight = s.inFlight + 1 ∨
      (setCoords position s).inFlight = s.inFlight) ∧
    ((setCoords position s).inFlight = s.inFlight + 1 ↔
      (s.pendingFetch = false ∧ (s.currentLocation = none ∨
        ∃ old, s.currentLocation = some old ∧
          250 ≤ haversineDistance position.latitude position.longitude
            old.latitude old.longitude))) ∧
    (∀ c, s.currentLocation = some c → position = c →
      (setCoords position s).inFlight = s.inFlight) := by
  have hs1i : (updateUI { s with currentLocation := some position }).inFlight = s.inFlight :=
    updateUI_inFlight _
  have hs1p : (updateUI { s with currentLocation := some position }).pendingFetch =
      s.pendingFetch := updateUI_pendingFetch _
  rcases hloc : s.currentLocation with _ | old
  · have hred : setCoords position s =
        startFetchIfIdle (updateUI { s with currentLocation := some position }) := by
      rw [setCoords_eq, hloc]
    by_cases hp : s.pendingFetch = true
    · have hi : (setCoords position s).inFlight = s.inFlight := by
        rw [hred, startFetchIfIdle_inFlight, hs1p, if_pos hp, hs1i]
      refine ⟨Or.inr hi, ?_, fun c hc _ => hi⟩
      rw [hi]
      constructor
      · intro hctr
        exact absurd hctr (by omega)
      · rintro ⟨hpf, _⟩
        rw [hp] at hpf
        cases hpf
    · have hp' : s.pendingFetch = false := Bool.eq_false_iff.mpr hp
      have hi : (setCoords position s).inFlight = s.inFlight + 1 := by
        rw [hred, startFetchIfIdle_inFlight, hs1p, if_neg hp, hs1i]
      refine ⟨Or.inl hi, ?_, ?_⟩
      · rw [hi]
        exact ⟨fun _ => ⟨hp', Or.inl rfl⟩, fun _ => rfl⟩
      · intro c hc _
        exact Option.noConfusion hc
  · have hred : setCoords position s =
        if haversineDistance position.latitude position.longitude old.latitude old.longitude < 250
        then updateUI { s with currentLocation := some position }
        else startFetchIfIdle (updateUI { s with currentLocation := some position }) := by
      rw [setCoords_eq, hloc]
    by_cases hd : haversineDistance position.latitude position.longitude
        old.latitude old.longitude < 250
    · have hi : (setCoords position s).inFlight = s.inFlight := by
        rw [hred, if_pos hd, hs1i]
      refine ⟨Or.inr hi, ?_, fun c hc _ => hi⟩
      rw [hi]
      constructor
      · intro hctr
        exact absurd hctr (by omega)
      · rintro ⟨_, hcase⟩
        exfalso
        rcases hcase with hnone | ⟨old2, hold2, hge⟩
        · exact Option.noConfusion hnone
        · injection hold2 with he
          rw [he] at hd
          linarith
    · by_cases hp : s.pendingFetch = true
      · have hi : (setCoords position s).inFlight = s.inFlight := by
          rw [hred, if_neg hd, startFetchIfIdle_inFlight, hs1p, if_pos hp, hs1i]
        refine ⟨Or.inr hi, ?_, fun c hc _ => hi⟩
        rw [hi]
        constructor
        · intro hctr
          exact absurd hctr (by omega)
        · rintro ⟨hpf, _⟩
          rw [hp] at hpf
          cases hpf
      · have hp' : s.pendingFetch = false := Bool.eq_false_iff.mpr hp
        have hi : (setCoords position s).inFlight = s.inFlight + 1 := by
          rw [hred, if_neg hd, startFetchIfIdle_inFlight, hs1p, if_neg hp, hs1i]
        refine ⟨Or.inl hi, ?_, ?_⟩
        · rw [hi]
          exact ⟨fun _ => ⟨hp', Or.inr ⟨old, rfl, le_of_not_lt hd⟩⟩, fun _ => rfl⟩
        · intro c hc hpos
          exfalso
          injection hc with he
          apply hd
          rw [hpos, he]
          rw [haversineDistance_self c.latitude c.longitude]
          norm_num

/-- An example state holding a first fix at the origin. -/
def exampleFixState : AppState :=
  { initialState with currentLocation := some ⟨0, 0⟩ }

/-- C5 witness: an update repeating the current coordinate (distance 0)
initiates no fetch. -/
theorem setCoords_refresh_policy_witness :
    (setCoords ⟨0, 0⟩ exampleFixState).inFlight = exampleFixState.inFlight :=
  (setCoords_refresh_policy exampleFixState ⟨0, 0⟩).2.2 ⟨0, 0⟩ rfl rfl

theorem haversineDistance_pole :
    haversineDistance 90 0 0 0 = 2 * 6371e3 * (Real.pi / 4) := by
  have e1 : degToRad (0 - 90) = -(Real.pi / 2) := by unfold degToRad; ring
  have e2 : degToRad (0 - 0) = 0 := by unfold degToRad; ring
  have e3 : degToRad 90 = Real.pi / 2 := by unfold degToRad; ring
  have hf1 : haversineFunc (0 - 90) = 1 / 2 := by
    unfold haversineFunc
    rw [e1, Real.cos_neg, Real.cos_pi_div_two]
    norm_num
  have hf2 : haversineFunc (0 - 0) = 0 := by
    unfold haversineFunc
    rw [e2, Real.cos_zero]
    norm_num
  have hgcd : haversineFunc (0 - 90) +
      Real.cos (degToRad 90) * Real.cos (degToRad 0) * haversineFunc (0 - 0) = 1 / 2 := by
    rw [hf1, hf2, e3, Real.cos_pi_div_two]
    ring
  have hsqrt : Real.sqrt (1 / 2) = Real.sqrt 2 / 2 := by
    rw [show (1 / 2 : ℝ) = 2⁻¹ by norm_num, Real.sqrt_inv]
    field_simp
  have harcsin : Real.arcsin (Real.sqrt 2 / 2) = Real.pi / 4 := by
    rw [← Real.sin_pi_div_four]
    exact Real.arcsin_sin (by linarith [Real.pi_pos]) (by linarith [Real.pi_pos])
  have hexp : haversineDistance 90 0 0 0 =
      2 * 6371e3 * Real.arcsin (Real.sqrt (haversineFunc (0 - 90) +
        Real.cos (degToRad 90) * Real.cos (degToRad 0) * haversineFunc (0 - 0))) := rfl
  rw [hexp, hgcd, hsqrt, harcsin]

theorem haversineDistance_pole_ge : 250 ≤ haversineDistance 90 0 0 0 := by
  rw [haversineDistance_pole]
  nlinarith [Real.pi_gt_three]

/-- C5 counterexample: starting from the initial state, a first fix at
(0,0) puts a fetch in flight; the next update at (90,0) — a move of about
10,000 km, far above the 250 m threshold — initiates NO new fetch, because
one is still pending, contradicting "initiated exactly when the previous
coordinate is absent or the distance is at least 250 m". -/
theorem setCoords_refresh_policy_counterexample :
    250 ≤ haversineDistance 90 0 0 0 ∧
    (setCoords ⟨90, 0⟩ (setCoords ⟨0, 0⟩ initialState)).inFlight =
      (setCoords ⟨0, 0⟩ initialState).inFlight := by
  refine ⟨haversineDistance_pole_ge, ?_⟩
  have hp : (setCoords ⟨0, 0⟩ initialState).pendingFetch = true := rfl
  exact (setCoords_flags_of_pending ⟨90, 0⟩ _ hp).1

/-- C3 (amended): the response handling of `fetchNearbyPubs` never touches
the selection; whenever the async body throws (malformed JSON body or a
record without `tags`), the state is left exactly as it was — but NO error
status is surfaced in that case; a non-2xx response leaves the candidate
set untouched and surfaces an error status; and the candidate set is only
ever replaced atomically by the fully extracted list of a well-formed
response. -/
theorem fetchNearbyPubs_failure_atomicity (resp : FetchResponse) (s : AppState) :
    ((handleFetchResponse resp s).1.selectedPubId = s.selectedPubId) ∧
    ((handleFetchResponse resp s).2 = FetchResult.threw → (handleFetchResponse resp s).1 = s) ∧
    (∀ code, resp = FetchResponse.notOk code →
      (handleFetchResponse resp s).1.nearbyPubs = s.nearbyPubs ∧
      (handleFetchResponse resp s).1.status =
        some ("Error fetching local pubs: " ++ toString code, StatusLevel.error)) ∧
    ((handleFetchResponse resp s).1.nearbyPubs = s.nearbyPubs ∨
      ∃ elements results, resp = FetchResponse.ok elements ∧
        extractPubs (elements.getD []) = Except.ok results ∧
        (handleFetchResponse resp s).1.nearbyPubs = some results) := by
  rcases resp with code | _ | elements
  · refine ⟨rfl, ?_, ?_, Or.inl rfl⟩
    · intro h
      exact FetchResult.noConfusion h
    · intro code2 hc
      injection hc with he
      rw [he]
      exact ⟨rfl, rfl⟩
  · exact ⟨rfl, fun _ => rfl, fun code2 hc => FetchResponse.noConfusion hc, Or.inl rfl⟩
  · have hred : handleFetchResponse (FetchResponse.ok elements) s =
        match extractPubs (elements.getD []) with
        | Except.error _ => (s, FetchResult.threw)
        | Except.ok results =>
            (updateUI { s with nearbyPubs := some results }, FetchResult.completed) := rfl
    rcases hx : extractPubs (elements.getD []) with e | results
    · rw [hred, hx]
      exact ⟨rfl, fun _ => rfl, fun code2 hc => FetchResponse.noConfusion hc, Or.inl rfl⟩
    · rw [hred, hx]
      refine ⟨?_, ?_, ?_, ?_⟩
      · show (updateUI { s with nearbyPubs := some results }).selectedPubId = s.selectedPubId
        rw [updateUI_selectedPubId]
      · intro h
        exact FetchResult.noConfusion h
      · intro code2 hc
        exact FetchResponse.noConfusion hc
      · right
        refine ⟨elements, results, rfl, hx, ?_⟩
        show (updateUI { s with nearbyPubs := some results }).nearbyPubs = some results
        rw [updateUI_nearbyPubs]

/-- C3 witness: a 500 response leaves the (empty) candidate set untouched
and surfaces the error banner; a malformed body leaves the entire state
untouched. -/
theorem fetchNearbyPubs_failure_atomicity_witness :
    ((handleFetchResponse (FetchResponse.notOk 500) initialState).1.nearbyPubs =
        initialState.nearbyPubs ∧
      (handleFetchResponse (FetchResponse.notOk 500) initialState).1.status =
        some ("Error fetching local pubs: " ++ toString 500, StatusLevel.error)) ∧
    (handleFetchResponse FetchResponse.badJson initialState).1 = initialState :=
  ⟨(fetchNearbyPubs_failure_atomicity (FetchResponse.notOk 500) initialState).2.2.1 500 rfl,
   (fetchNearbyPubs_failure_atomicity FetchResponse.badJson initialState).2.1 rfl⟩

/-- The state right after a fetch has been started from startup. -/
def fetchingState : AppState := startFetchIfIdle initialState

/-- C3 counterexample: on a malformed body the async function throws and
surfaces NO error status to the rendering collaborator — the status banner
still holds the "Fetching nearby pubs" info message set when the fetch
started, contradicting "an error status is surfaced" for malformed
responses. -/
theorem fetchNearbyPubs_malformed_counterexample :
    (handleFetchResponse FetchResponse.badJson fetchingState).1.status =
      some ("Fetching nearby pubs", StatusLevel.info) ∧
    (handleFetchResponse FetchResponse.badJson fetchingState).2 = FetchResult.threw ∧
    StatusLevel.info ≠ StatusLevel.error :=
  ⟨rfl, rfl, by decide⟩

/-- C4 counterexample: with the user at (0,0) and candidate set
`[p0, p1]` where `p0` sits at (90,0) with id `0` and `p1` at (0,0) with
id `1`, the stored selection id `0` names a member that IS present, yet
resolution returns the other, nearest member — "returns the member whose
id equals the selection whenever such a member exists, regardless of
distances" fails for the falsy id `0`. -/
theorem selectedPub_falsy_counterexample :
    (⟨90, 0, none, 0⟩ : Pub) ∈ ([⟨90, 0, none, 0⟩, ⟨0, 0, none, 1⟩] : List Pub) ∧
    (⟨90, 0, none, 0⟩ : Pub).id = 0 ∧
    selectedPub ⟨0, 0⟩ [⟨90, 0, none, 0⟩, ⟨0, 0, none, 1⟩] (some 0) =
      some ⟨0, 0, none, 1⟩ := by
  refine ⟨List.mem_cons_self _ _, rfl, ?_⟩
  have hne : ([⟨90, 0, none, 0⟩, ⟨0, 0, none, 1⟩] : List Pub) ≠ [] := by simp
  obtain ⟨k, hk, hhead, hmin, hfirst⟩ := head?_toSortedByDistance ⟨0, 0⟩ _ hne
  have hred : selectedPub ⟨0, 0⟩ [⟨90, 0, none, 0⟩, ⟨0, 0, none, 1⟩] (some 0) =
      (toSortedByDistance ⟨0, 0⟩ [⟨90, 0, none, 0⟩, ⟨0, 0, none, 1⟩]).head? := rfl
  have hd1 : pubDistance ⟨0, 0⟩ (⟨0, 0, none, 1⟩ : Pub) = 0 := by
    show haversineDistance 0 0 0 0 = 0
    exact haversineDistance_self 0 0
  have hd0pos : 0 < pubDistance ⟨0, 0⟩ (⟨90, 0, none, 0⟩ : Pub) := by
    show 0 < haversineDistance 0 0 90 0
    rw [haversineDistance_swap, haversineDistance_pole]
    nlinarith [Real.pi_gt_three]
  have hkne : k ≠ 0 := by
    intro h0
    subst h0
    have hle := hmin (⟨0, 0, none, 1⟩ : Pub) (by simp)
    rw [hd1] at hle
    have hfin : pubDistance ⟨0, 0⟩ (⟨90, 0, none, 0⟩ : Pub) ≤ 0 := hle
    linarith
  have hk2 : k < 2 := hk
  have hk1 : k = 1 := by omega
  subst hk1
  rw [hred, hhead]
  rfl
